import Mathlib

/-!
Verification development for `bg_flex_manager_cli.py` (Bitget flex manager CLI).

Shallow embedding conventions:
* Decimal amounts (`float` values obtained from decimal strings) are modelled
  as `ℚ`.
* Exchange sub-account uids are numeric strings; they are sorted via `int(...)`
  and compared for equality, so they are modelled as `ℕ`.
* Config-file account ids are either the string `"main"` or the decimal string
  of a positive slot number; they are modelled by the inductive `SlotKey`.
* API responses carry a status `code` string; `"00000"` denotes success.
-/

namespace BgFlex

/-- Local config account ids: the key `"main"` or a numeric slot string
`"1"`, `"2"`, ... (`str(i+1)` in the source). -/
inductive SlotKey
  | main
  | slot (n : ℕ)
deriving DecidableEq

/-- One entry of `config['accounts']`: fields `type`, `uuid`, `apikey`,
`secret`, `passphrase`.  A missing/empty uuid is `none`. -/
structure ConfigAccount where
  type : String
  uuid : Option ℕ
  apikey : String
  secret : String
  passphrase : String
deriving DecidableEq

/-- The `config['accounts']` dict as an association list in dict insertion order;
keys are unique in a Python dict. -/
abbrev Config := List (SlotKey × ConfigAccount)

/-- Dict lookup by key. -/
def lookupSlot (cfg : Config) (k : SlotKey) : Option ConfigAccount :=
  match cfg with
  | [] => none
  | (k', v) :: rest => if k' = k then some v else lookupSlot rest k

/-- One element of the `resultList` of a savings-assets response. -/
structure SavingsItem where
  productId : String
  holdAmount : ℚ
deriving DecidableEq

/-- Response of `get_savings_assets`: status `code` plus
`data.resultList`. -/
structure SavingsResult where
  code : String
  resultList : List SavingsItem
deriving DecidableEq

/-- One element of the `data` list of a spot-assets response. -/
structure WalletEntry where
  available : ℚ
  frozen : ℚ
deriving DecidableEq

/-- Response of `get_spot_assets`: status `code` plus the `data` list. -/
structure WalletResult where
  code : String
  data : List WalletEntry
deriving DecidableEq

/-- Function `get_account_holding` (bg_flex_manager_cli.py lines 818-826): on a
successful savings query, the `holdAmount` of the first `resultList` item
matching the product id, else `0.0`.  The same logic appears inline at
lines 510-518 of `step3_user_selection`. -/
def get_account_holding (r : SavingsResult) (productId : String) : ℚ :=
  if r.code = "00000" then
    match r.resultList.find? (fun item => item.productId == productId) with
    | some item => item.holdAmount
    | none => 0
  else 0

/-- Function `get_account_wallet` (lines 829-836): on a successful wallet query with a
non-empty `data` list, the first entry's `available`, else `0.0`.  The same
logic appears inline at lines 520-526 of `step3_user_selection`. -/
def get_account_wallet (r : WalletResult) : ℚ :=
  if r.code = "00000" then
    match r.data with
    | [] => 0
    | entry :: _ => entry.available
  else 0

/-- The per-account query bundle stored in `account_status[account_id]`
(lines 438-443): the config entry plus the two balance query results.
(The third, subscribe-info query is not used by the planner.) -/
structure AccountStatus where
  id : SlotKey
  account_info : ConfigAccount
  savings_result : SavingsResult
  wallet_result : WalletResult
deriving DecidableEq

/-- The per-account view appended to `valid_accounts`
(lines 507-541): holding, wallet and `space_to_tier1 =
max(0, tier1_limit - personal_holding)`. -/
structure AccountView where
  id : SlotKey
  type : String
  holding : ℚ
  wallet : ℚ
  space_to_tier1 : ℚ
deriving DecidableEq

/-- Building one `valid_accounts` entry from the queried status
(lines 507-541). -/
def buildAccountView (tier1_limit : ℚ) (productId : String) (s : AccountStatus) :
    AccountView :=
  let holding := get_account_holding s.savings_result productId
  { id := s.id
    type := s.account_info.type
    holding := holding
    wallet := get_account_wallet s.wallet_result
    space_to_tier1 := max 0 (tier1_limit - holding) }

/-- The strategy menu of step 3: `'1'` fill to the tier-1 ceiling, `'2'`
drain to the tier-1 ceiling, `'3'` drain all. -/
inductive OpChoice
  | fillToTier1
  | drainToTier1
  | drainAll
deriving DecidableEq

/-- Savings operation kind. -/
inductive SavingsAction
  | subscribe
  | redeem
deriving DecidableEq

/-- A planned savings operation (the dicts appended to `operations`). -/
structure SavingsOp where
  account_id : SlotKey
  action : SavingsAction
  amount : ℚ
deriving DecidableEq

/-- The per-account body of the planning loop of `step3_user_selection`
(lines 583-612): fill emits a subscribe of
`can_deposit = min(wallet, space_to_tier1)` when `can_deposit >= 0.1`
and otherwise skips the account; the drain strategies emit redeems. -/
def planAccount (tier1_limit : ℚ) (choice : OpChoice) (a : AccountView) :
    Option SavingsOp :=
  match choice with
  | .fillToTier1 =>
      let can_deposit := min a.wallet a.space_to_tier1
      if (1 : ℚ)/10 ≤ can_deposit then
        some ⟨a.id, .subscribe, can_deposit⟩
      else none
  | .drainToTier1 =>
      if tier1_limit < a.holding then
        some ⟨a.id, .redeem, a.holding - tier1_limit⟩
      else none
  | .drainAll =>
      if 0 < a.holding then some ⟨a.id, .redeem, a.holding⟩ else none

/-- The whole planning loop of `step3_user_selection` (lines 581-612):
accounts are visited in selection order and skipped accounts produce
nothing. -/
def step3_plan_operations (tier1_limit : ℚ) (choice : OpChoice)
    (selected : List AccountView) : List SavingsOp :=
  selected.filterMap (planAccount tier1_limit choice)

/-- C1: under fill-to-tier-1 the planned deposit for an account is
`min(wallet_available, max(0, tier1_ceiling - product_holding))`; a subscribe
for exactly that amount is emitted iff it is `≥ 0.1`, and a deposit of
exactly `0.099999` (below `0.1`) makes the account be skipped, the plan
staying a valid (possibly empty) list rather than an error. -/
theorem c1_fill_to_tier1_deposit (t : ℚ) (pid : String) (s : AccountStatus) :
    (planAccount t .fillToTier1 (buildAccountView t pid s) =
      if (1 : ℚ)/10 ≤ min (get_account_wallet s.wallet_result)
          (max 0 (t - get_account_holding s.savings_result pid)) then
        some ⟨s.id, .subscribe,
          min (get_account_wallet s.wallet_result)
            (max 0 (t - get_account_holding s.savings_result pid))⟩
      else none) ∧
    ((99999 : ℚ)/1000000 < 1/10) ∧
    step3_plan_operations 300 .fillToTier1
      [⟨SlotKey.slot 1, "sub", 0, 99999/1000000, 300⟩] = [] := by
  refine ⟨rfl, by norm_num, ?_⟩
  have hmin : min ((99999 : ℚ)/1000000) 300 = 99999/1000000 := by
    rw [min_eq_left]; norm_num
  simp only [step3_plan_operations, List.filterMap, planAccount, hmin]
  norm_num

/-- C6: drain-to-tier-1 emits `Redeem{a, holding - ceiling}` for an account
exactly when `holding > ceiling`, and drain-all emits `Redeem{a, holding}`
exactly when `holding > 0`; other accounts contribute no operation, in
selection order. -/
theorem c6_drain_strategies (t : ℚ) (a : AccountView)
    (rest : List AccountView) :
    (step3_plan_operations t .drainToTier1 (a :: rest) =
      (if t < a.holding then [⟨a.id, .redeem, a.holding - t⟩] else []) ++
        step3_plan_operations t .drainToTier1 rest) ∧
    (step3_plan_operations t .drainAll (a :: rest) =
      (if 0 < a.holding then [⟨a.id, .redeem, a.holding⟩] else []) ++
        step3_plan_operations t .drainAll rest) := by
  constructor
  · by_cases h : t < a.holding <;>
      simp [step3_plan_operations, List.filterMap_cons, planAccount, h]
  · by_cases h : 0 < a.holding <;>
      simp [step3_plan_operations, List.filterMap_cons, planAccount, h]

/-- One entry of the `sub_accounts` list built by
`transfer_step2_user_selection` (lines 976-994): slot id, uuid and current
available balance. -/
structure SubAccount where
  id : SlotKey
  uuid : Option ℕ
  balance : ℚ
deriving DecidableEq

/-- Direction tag of a planned transfer operation (`op['type']`). -/
inductive TransferKind
  | mainToSub
  | subToMain
deriving DecidableEq

/-- A planned transfer operation (the dicts appended to `operations` in
`transfer_step2_user_selection`). -/
structure TransferOp where
  kind : TransferKind
  from_account : SlotKey
  to_account : SlotKey
  amount : ℚ
deriving DecidableEq

/-- The main-to-sub branch of `transfer_step2_user_selection` after target
selection (lines 1072-1112).  `total = per * len(selected)`; if it exceeds
the main balance, `max_accounts = int(main_balance / per)` (with
`main_balance > 0` and `per > 0` enforced earlier, `int()` truncation equals
the floor); a positive `max_accounts` makes the code offer the first
`max_accounts` selected targets at the unchanged per-account amount, which
the user accepts (`acceptReduced = true`) or declines (plan cancelled);
`max_accounts = 0` fails.  Otherwise one transfer per selected target. -/
def planMainToSub (main_balance per : ℚ) (selected : List SubAccount)
    (acceptReduced : Bool) : Option (List TransferOp) :=
  if main_balance < per * selected.length then
    if 0 < ⌊main_balance / per⌋ then
      if acceptReduced then
        some ((selected.take (⌊main_balance / per⌋).toNat).map
          (fun sub => ⟨.mainToSub, SlotKey.main, sub.id, per⟩))
      else none
    else none
  else
    some (selected.map (fun sub => ⟨.mainToSub, SlotKey.main, sub.id, per⟩))

/-- C2: when `per * |targets| > main_balance`, the planner computes
`max_affordable_targets = floor(main_balance / per)`; if that is at least 1
the offered reduced plan is exactly the first `max_affordable_targets`
originally selected targets, in order, each at the unchanged per-account
amount, and if it is 0 planning fails with no operations.  In particular
main balance 100, per-account amount 30 and five targets yield exactly the
first three targets. -/
theorem c2_transfer_overflow_truncation (mb per : ℚ)
    (selected : List SubAccount) (hover : mb < per * selected.length) :
    (1 ≤ ⌊mb / per⌋ →
      planMainToSub mb per selected true =
        some ((selected.take (⌊mb / per⌋).toNat).map
          (fun sub => ⟨.mainToSub, SlotKey.main, sub.id, per⟩))) ∧
    (⌊mb / per⌋ ≤ 0 → planMainToSub mb per selected true = none) ∧
    (∀ s1 s2 s3 s4 s5 : SubAccount,
      planMainToSub 100 30 [s1, s2, s3, s4, s5] true =
        some [⟨.mainToSub, SlotKey.main, s1.id, 30⟩,
              ⟨.mainToSub, SlotKey.main, s2.id, 30⟩,
              ⟨.mainToSub, SlotKey.main, s3.id, 30⟩]) := by
  refine ⟨?_, ?_, ?_⟩
  · intro h1
    rw [planMainToSub, if_pos hover, if_pos (by omega)]
    simp
  · intro h0
    rw [planMainToSub, if_pos hover, if_neg (by omega)]
  · intro s1 s2 s3 s4 s5
    have hfloor : (⌊(100 : ℚ)/30⌋ : ℤ) = 3 := by
      rw [Int.floor_eq_iff]; norm_num
    rw [planMainToSub, if_pos (by norm_num), if_pos (by rw [hfloor]; norm_num)]
    rw [if_pos rfl]
    simp [hfloor, List.take]

/-- C2 witness: with main balance 10, per-account amount 30 and one target
the overflow branch is taken and `floor(10/30) = 0` fails the plan. -/
theorem c2_transfer_overflow_truncation_witness :
    planMainToSub 10 30 [⟨SlotKey.slot 1, none, 0⟩] true = none := by
  have h := c2_transfer_overflow_truncation 10 30 [⟨SlotKey.slot 1, none, 0⟩]
    (by norm_num)
  refine h.2.1 (le_of_eq ?_)
  rw [Int.floor_eq_zero_iff, Set.mem_Ico]
  constructor <;> norm_num

/-- C8 as stated is false: an account whose savings query failed but whose
wallet query succeeded with balance 500 does not use zero for its wallet
balance, and under fill-to-tier-1 (ceiling 300) it receives a Subscribe of
300. -/
theorem c8_single_failed_query_cex :
    (AccountStatus.mk (SlotKey.slot 1) ⟨"sub", some 100, "k", "s", "p"⟩
        ⟨"40001", []⟩ ⟨"00000", [⟨500, 0⟩]⟩).savings_result.code ≠ "00000" ∧
    get_account_wallet (WalletResult.mk "00000" [⟨500, 0⟩]) = 500 ∧
    planAccount 300 .fillToTier1
      (buildAccountView 300 "P"
        (AccountStatus.mk (SlotKey.slot 1) ⟨"sub", some 100, "k", "s", "p"⟩
          ⟨"40001", []⟩ ⟨"00000", [⟨500, 0⟩]⟩)) =
      some ⟨SlotKey.slot 1, .subscribe, 300⟩ := by
  refine ⟨by decide, rfl, ?_⟩
  have hh : get_account_holding (SavingsResult.mk "40001" []) "P" = 0 := by
    simp [get_account_holding]
  rw [planAccount]
  simp only [buildAccountView, hh, get_account_wallet]
  norm_num

/-- C8 amended: a failed savings query contributes holding 0 and a failed
wallet query contributes wallet 0 (never an estimated value); an account
with BOTH queries failed gets no operation under any strategy (given a
nonnegative tier-1 ceiling); a single failed query, however, does not by
itself suppress operations driven by the other, successfully queried
value. -/
theorem c8_failed_query_contributes_zero (t : ℚ) (pid : String)
    (s : AccountStatus) (ht : 0 ≤ t) :
    (s.savings_result.code ≠ "00000" →
      get_account_holding s.savings_result pid = 0) ∧
    (s.wallet_result.code ≠ "00000" → get_account_wallet s.wallet_result = 0) ∧
    (s.savings_result.code ≠ "00000" → s.wallet_result.code ≠ "00000" →
      ∀ choice, planAccount t choice (buildAccountView t pid s) = none) := by
  refine ⟨?_, ?_, ?_⟩
  · intro h; rw [get_account_holding, if_neg h]
  · intro h; rw [get_account_wallet, if_neg h]
  · intro hs hw choice
    have hh : get_account_holding s.savings_result pid = 0 := by
      rw [get_account_holding, if_neg hs]
    have hwz : get_account_wallet s.wallet_result = 0 := by
      rw [get_account_wallet, if_neg hw]
    cases choice with
    | fillToTier1 =>
        rw [planAccount]
        simp only [buildAccountView, hh, hwz]
        have hx : (0 : ℚ) ⊓ (0 ⊔ (t - 0)) = 0 := min_eq_left (le_max_left _ _)
        rw [hx, if_neg (by norm_num)]
    | drainToTier1 =>
        rw [planAccount]
        simp only [buildAccountView, hh]
        rw [if_neg (by exact not_lt.mpr ht)]
    | drainAll =>
        rw [planAccount]
        simp only [buildAccountView, hh]
        rw [if_neg (by norm_num)]

/-- C8 amended witness: a concrete account with both queries failed gets
zero balances and no operation under fill-to-tier-1. -/
theorem c8_failed_query_contributes_zero_witness :
    get_account_holding (SavingsResult.mk "40001" []) "P" = 0 ∧
    get_account_wallet (WalletResult.mk "50067" []) = 0 ∧
    planAccount 300 .fillToTier1
      (buildAccountView 300 "P"
        (AccountStatus.mk (SlotKey.slot 2) ⟨"sub", some 7, "k", "s", "p"⟩
          ⟨"40001", []⟩ ⟨"50067", []⟩)) = none := by
  have h := c8_failed_query_contributes_zero 300 "P"
    (AccountStatus.mk (SlotKey.slot 2) ⟨"sub", some 7, "k", "s", "p"⟩
      ⟨"40001", []⟩ ⟨"50067", []⟩) (by norm_num)
  exact ⟨h.1 (by decide), h.2.1 (by decide),
    h.2.2 (by decide) (by decide) .fillToTier1⟩

/-- Constant `TARGET_SUBACCOUNT_COUNT` (line 17). -/
def TARGET_SUBACCOUNT_COUNT : ℕ := 4

/-- One exchange-returned virtual sub-account.  Only its `subAccountUid`
(a numeric string, sorted via `int(...)` and compared for equality, hence
modelled as `ℕ`) is used by the config-sync code. -/
structure ExchangeSub where
  subAccountUid : ℕ
deriving DecidableEq

/-- The sort `sorted(subaccounts[:TARGET_SUBACCOUNT_COUNT],
key=lambda x: int(x.get('subAccountUid')))` (lines 209 and 248).  Note that
the truncation to the target count happens before the sort.  Python's
`sorted` is a stable sort; `List.insertionSort` is stable, and model
elements are fully determined by their uid. -/
def sorted_subaccounts (subs : List ExchangeSub) : List ExchangeSub :=
  List.insertionSort (fun a b => a.subAccountUid ≤ b.subAccountUid)
    (subs.take TARGET_SUBACCOUNT_COUNT)

instance : IsTotal ExchangeSub (fun a b => a.subAccountUid ≤ b.subAccountUid) :=
  ⟨fun a b => Nat.le_total a.subAccountUid b.subAccountUid⟩

instance : IsTrans ExchangeSub (fun a b => a.subAccountUid ≤ b.subAccountUid) :=
  ⟨fun _ _ _ hab hbc => Nat.le_trans hab hbc⟩

instance : IsAntisymm ExchangeSub (fun a b => a.subAccountUid ≤ b.subAccountUid) :=
  ⟨fun a b hab hba => by
    cases a; cases b
    simp only [ExchangeSub.mk.injEq]
    exact Nat.le_antisymm hab hba⟩

/-- Function `check_config_needs_update` (lines 202-227): `true` when there is no
config, when the count of locally configured sub-accounts differs from the
(truncated, sorted) exchange list, or when some sorted position's uid does
not match the uuid recorded at slot `i+1`. -/
def check_config_needs_update (config : Option Config)
    (subs : List ExchangeSub) : Bool :=
  match config with
  | none => true
  | some cfg =>
      let ss := sorted_subaccounts subs
      let existing_sub_accounts := cfg.filter (fun p => p.2.type == "sub")
      if existing_sub_accounts.length ≠ ss.length then true
      else
        !(ss.enum.all (fun p =>
          match lookupSlot existing_sub_accounts (SlotKey.slot (p.1 + 1)) with
          | some acc => acc.uuid == some p.2.subAccountUid
          | none => false))

/-- The credential triple preserved across a renumbering. -/
structure Creds where
  apikey : String
  secret : String
  passphrase : String
deriving DecidableEq

/-- The `existing_uuid_to_config` map (lines 238-245): credentials of old
`sub` entries with a truthy uuid, keyed by uuid; a later dict entry
overwrites an earlier one with the same uuid, so the last match wins. -/
def existing_uuid_to_config (cfg : Config) (uid : ℕ) : Option Creds :=
  ((cfg.filter (fun p => p.2.type == "sub" && p.2.uuid == some uid)).map
    (fun p => Creds.mk p.2.apikey p.2.secret p.2.passphrase)).getLast?

/-- Assignment `d[k] = v` on a Python dict: replaces the value in place
when the key is present, else appends the pair at the end. -/
def setSlot (cfg : Config) (k : SlotKey) (v : ConfigAccount) : Config :=
  if cfg.any (fun p => p.1 == k) then
    cfg.map (fun p => if p.1 = k then (k, v) else p)
  else cfg ++ [(k, v)]

/-- The entry written for a slot during the rebuild loop (lines 250-274):
carried-forward credentials when the uid was already known, empty
credential fields otherwise. -/
def rebuilt_entry (cfg : Config) (uid : ℕ) : ConfigAccount :=
  match existing_uuid_to_config cfg uid with
  | some c => ⟨"sub", some uid, c.apikey, c.secret, c.passphrase⟩
  | none => ⟨"sub", some uid, "", "", ""⟩

/-- Function `update_config_with_subaccounts` (lines 230-280): writes slot `i+1` for
each position `i` of the sorted (truncated) exchange list, looking
credentials up in the map built from the config as it was before the
loop.  Dict entries whose key is never written (the main account, and any
stale numbered slot beyond the new count) are left untouched. -/
def update_config_with_subaccounts (cfg : Config)
    (subs : List ExchangeSub) : Config :=
  (sorted_subaccounts subs).enum.foldl
    (fun acc p =>
      setSlot acc (SlotKey.slot (p.1 + 1)) (rebuilt_entry cfg p.2.subAccountUid))
    cfg

theorem lookupSlot_append (l1 l2 : Config) (k : SlotKey) :
    lookupSlot (l1 ++ l2) k =
      match lookupSlot l1 k with
      | some v => some v
      | none => lookupSlot l2 k := by
  induction l1 with
  | nil => rfl
  | cons p rest ih =>
      obtain ⟨k0, v0⟩ := p
      by_cases h : k0 = k
      · rw [List.cons_append, lookupSlot, if_pos h, lookupSlot, if_pos h]
      · rw [List.cons_append, lookupSlot, if_neg h, lookupSlot, if_neg h, ih]

theorem lookupSlot_map_overwrite (cfg : Config) (k : SlotKey)
    (v : ConfigAccount) (h : cfg.any (fun p => p.1 == k) = true) :
    lookupSlot (cfg.map (fun p => if p.1 = k then (k, v) else p)) k =
      some v := by
  induction cfg with
  | nil => simp at h
  | cons p rest ih =>
      obtain ⟨k0, v0⟩ := p
      by_cases hk : k0 = k
      · subst hk
        rw [List.map_cons]
        have hhd : (if ((k0, v0) : SlotKey × ConfigAccount).1 = k0
            then ((k0, v) : SlotKey × ConfigAccount) else (k0, v0)) = (k0, v) :=
          if_pos rfl
        rw [hhd]
        simp [lookupSlot]
      · rw [List.any_cons] at h
        have hb : (k0 == k) = false := by simp [hk]
        rw [hb, Bool.false_or] at h
        rw [List.map_cons]
        simp only [if_neg hk]
        rw [lookupSlot, if_neg hk]
        exact ih h

theorem lookupSlot_map_overwrite_other (cfg : Config) (k k' : SlotKey)
    (v : ConfigAccount) (hne : k' ≠ k) :
    lookupSlot (cfg.map (fun p => if p.1 = k then (k, v) else p)) k' =
      lookupSlot cfg k' := by
  induction cfg with
  | nil => rfl
  | cons p rest ih =>
      obtain ⟨k0, v0⟩ := p
      by_cases hk : k0 = k
      · subst hk
        rw [List.map_cons]
        simp only [if_pos rfl]
        rw [lookupSlot, if_neg (fun h => hne h.symm), lookupSlot,
          if_neg (fun h => hne h.symm)]
        exact ih
      · rw [List.map_cons]
        simp only [if_neg hk]
        by_cases h0 : k0 = k'
        · subst h0
          rw [lookupSlot, if_pos rfl, lookupSlot, if_pos rfl]
        · rw [lookupSlot, if_neg h0, lookupSlot, if_neg h0]
          exact ih

theorem lookupSlot_eq_none (cfg : Config) (k : SlotKey)
    (h : cfg.any (fun p => p.1 == k) = false) : lookupSlot cfg k = none := by
  induction cfg with
  | nil => rfl
  | cons p rest ih =>
      obtain ⟨k0, v0⟩ := p
      rw [List.any_cons, Bool.or_eq_false_iff] at h
      rw [lookupSlot, if_neg (by simpa using h.1)]
      exact ih h.2

theorem lookupSlot_setSlot_same (cfg : Config) (k : SlotKey)
    (v : ConfigAccount) : lookupSlot (setSlot cfg k v) k = some v := by
  rw [setSlot]
  by_cases hany : cfg.any (fun p => p.1 == k) = true
  · rw [if_pos hany]
    exact lookupSlot_map_overwrite cfg k v hany
  · have hf : cfg.any (fun p => p.1 == k) = false := Bool.eq_false_iff.mpr hany
    rw [if_neg hany, lookupSlot_append, lookupSlot_eq_none cfg k hf]
    simp [lookupSlot]

theorem lookupSlot_setSlot_other (cfg : Config) (k k' : SlotKey)
    (v : ConfigAccount) (hne : k' ≠ k) :
    lookupSlot (setSlot cfg k v) k' = lookupSlot cfg k' := by
  rw [setSlot]
  by_cases hany : cfg.any (fun p => p.1 == k) = true
  · rw [if_pos hany]
    exact lookupSlot_map_overwrite_other cfg k k' v hne
  · rw [if_neg hany, lookupSlot_append]
    cases hl : lookupSlot cfg k' with
    | some w => rfl
    | none =>
        simp only []
        rw [lookupSlot, if_neg (fun h => hne h.symm)]
        rfl

theorem lookupSlot_foldl_setSlot_small (cfg0 : Config)
    (l : List ExchangeSub) (t : ℕ) :
    ∀ (n : ℕ) (acc : Config), t ≤ n →
    lookupSlot ((l.enumFrom n).foldl
        (fun a p =>
          setSlot a (SlotKey.slot (p.1 + 1)) (rebuilt_entry cfg0 p.2.subAccountUid))
        acc)
      (SlotKey.slot t) = lookupSlot acc (SlotKey.slot t) := by
  induction l with
  | nil => intro n acc _; rfl
  | cons a rest ih =>
      intro n acc ht
      rw [List.enumFrom_cons, List.foldl_cons,
        ih (n + 1) _ (Nat.le_succ_of_le ht)]
      exact lookupSlot_setSlot_other _ _ _ _
        (by intro h; injection h with h2; omega)

theorem lookupSlot_foldl_setSlot_hit (cfg0 : Config) (l : List ExchangeSub) :
    ∀ (i n : ℕ) (acc : Config) (sub : ExchangeSub), l.get? i = some sub →
    lookupSlot ((l.enumFrom n).foldl
        (fun a p =>
          setSlot a (SlotKey.slot (p.1 + 1)) (rebuilt_entry cfg0 p.2.subAccountUid))
        acc)
      (SlotKey.slot (n + i + 1)) =
      some (rebuilt_entry cfg0 sub.subAccountUid) := by
  induction l with
  | nil => intro i n acc sub h; simp at h
  | cons a rest ih =>
      intro i n acc sub h
      rw [List.enumFrom_cons, List.foldl_cons]
      cases i with
      | zero =>
          rw [List.get?_cons_zero] at h
          injection h with h2
          subst h2
          rw [lookupSlot_foldl_setSlot_small cfg0 rest (n + 0 + 1) (n + 1) _
            (le_refl _)]
          exact lookupSlot_setSlot_same _ _ _
      | succ j =>
          rw [List.get?_cons_succ] at h
          have hkey : n + (j + 1) + 1 = (n + 1) + j + 1 := by omega
          rw [hkey]
          exact ih j (n + 1) _ sub h

theorem sorted_subaccounts_perm_eq (l1 l2 : List ExchangeSub)
    (hp : l1.Perm l2) (h1 : l1.length ≤ TARGET_SUBACCOUNT_COUNT) :
    sorted_subaccounts l1 = sorted_subaccounts l2 := by
  have h2 : l2.length ≤ TARGET_SUBACCOUNT_COUNT := hp.length_eq ▸ h1
  rw [sorted_subaccounts, sorted_subaccounts, List.take_of_length_le h1,
    List.take_of_length_le h2]
  exact List.eq_of_perm_of_sorted
    (((List.perm_insertionSort _ l1).trans hp).trans
      (List.perm_insertionSort _ l2).symm)
    (List.sorted_insertionSort _ l1) (List.sorted_insertionSort _ l2)

/-- C3 as stated is false: with more exchange sub-accounts than the target
count (4), the kept subset depends on the exchange-returned order, because
the code truncates the list to the first 4 entries before sorting.  Two
permutations of a 5-element list give a different needs-update verdict and
a different rebuilt config. -/
theorem c3_order_dependence_cex :
    ([⟨1⟩, ⟨2⟩, ⟨3⟩, ⟨4⟩, ⟨5⟩] : List ExchangeSub).Perm
      [⟨5⟩, ⟨2⟩, ⟨3⟩, ⟨4⟩, ⟨1⟩] ∧
    check_config_needs_update
        (some [(SlotKey.slot 1, ⟨"sub", some 1, "k1", "s1", "p1"⟩),
               (SlotKey.slot 2, ⟨"sub", some 2, "k2", "s2", "p2"⟩),
               (SlotKey.slot 3, ⟨"sub", some 3, "k3", "s3", "p3"⟩),
               (SlotKey.slot 4, ⟨"sub", some 4, "k4", "s4", "p4"⟩)])
        [⟨1⟩, ⟨2⟩, ⟨3⟩, ⟨4⟩, ⟨5⟩] = false ∧
    check_config_needs_update
        (some [(SlotKey.slot 1, ⟨"sub", some 1, "k1", "s1", "p1"⟩),
               (SlotKey.slot 2, ⟨"sub", some 2, "k2", "s2", "p2"⟩),
               (SlotKey.slot 3, ⟨"sub", some 3, "k3", "s3", "p3"⟩),
               (SlotKey.slot 4, ⟨"sub", some 4, "k4", "s4", "p4"⟩)])
        [⟨5⟩, ⟨2⟩, ⟨3⟩, ⟨4⟩, ⟨1⟩] = true ∧
    update_config_with_subaccounts
        [(SlotKey.slot 1, ⟨"sub", some 1, "k1", "s1", "p1"⟩)]
        [⟨1⟩, ⟨2⟩, ⟨3⟩, ⟨4⟩, ⟨5⟩] ≠
      update_config_with_subaccounts
        [(SlotKey.slot 1, ⟨"sub", some 1, "k1", "s1", "p1"⟩)]
        [⟨5⟩, ⟨2⟩, ⟨3⟩, ⟨4⟩, ⟨1⟩] := by
  refine ⟨?_, ?_, ?_, ?_⟩ <;> decide

/-- C3 amended: whenever the exchange returns at most the configured target
count of sub-accounts, both the needs-update check and the slot rebuild are
invariant under permutations of the exchange-returned list (slot assignment
is by ascending numeric uid only); with more than the target count the kept
subset — and hence the result — can depend on the returned order. -/
theorem c3_slot_assignment_order_independent (cfg : Config)
    (oldConfig : Option Config) (l1 l2 : List ExchangeSub) (hp : l1.Perm l2)
    (h1 : l1.length ≤ TARGET_SUBACCOUNT_COUNT) :
    check_config_needs_update oldConfig l1 =
      check_config_needs_update oldConfig l2 ∧
    update_config_with_subaccounts cfg l1 =
      update_config_with_subaccounts cfg l2 := by
  have hs := sorted_subaccounts_perm_eq l1 l2 hp h1
  constructor
  · cases oldConfig with
    | none => rfl
    | some c => rw [check_config_needs_update, check_config_needs_update, hs]
  · rw [update_config_with_subaccounts, update_config_with_subaccounts, hs]

/-- C3 amended witness: two 2-element permutations give the same verdict
and the same rebuilt config. -/
theorem c3_slot_assignment_order_independent_witness :
    check_config_needs_update (some []) [⟨2⟩, ⟨1⟩] =
      check_config_needs_update (some []) [⟨1⟩, ⟨2⟩] ∧
    update_config_with_subaccounts [] [⟨2⟩, ⟨1⟩] =
      update_config_with_subaccounts [] [⟨1⟩, ⟨2⟩] :=
  c3_slot_assignment_order_independent [] (some []) [⟨2⟩, ⟨1⟩] [⟨1⟩, ⟨2⟩]
    (by decide) (by decide)

/-- C4: after the rebuild, slot `i+1` holds the `i`-th sub-account of the
sorted exchange list; its credentials are carried forward from the old
config entry with the same uid when one exists (matched by uid, never by
slot), and are empty otherwise.  The spec's concrete scenario: old slots
uidA=100 and uidB=200 with credentials, exchange list `[uidB, uidA, uidC]`
with uidA smallest — slot 1 maps to uidA with its original credentials and
uidC=300 gets an empty-credential slot 3. -/
theorem c4_credentials_follow_uid (cfg : Config) (subs : List ExchangeSub)
    (i : ℕ) (sub : ExchangeSub)
    (hi : (sorted_subaccounts subs).get? i = some sub) :
    (lookupSlot (update_config_with_subaccounts cfg subs)
        (SlotKey.slot (i + 1)) =
      some (rebuilt_entry cfg sub.subAccountUid)) ∧
    (∀ c, existing_uuid_to_config cfg sub.subAccountUid = some c →
      rebuilt_entry cfg sub.subAccountUid =
        ⟨"sub", some sub.subAccountUid, c.apikey, c.secret, c.passphrase⟩) ∧
    (existing_uuid_to_config cfg sub.subAccountUid = none →
      rebuilt_entry cfg sub.subAccountUid =
        ⟨"sub", some sub.subAccountUid, "", "", ""⟩) ∧
    update_config_with_subaccounts
        [(SlotKey.main, ⟨"main", some 9, "km", "sm", "pm"⟩),
         (SlotKey.slot 1, ⟨"sub", some 100, "ka", "sa", "pa"⟩),
         (SlotKey.slot 2, ⟨"sub", some 200, "kb", "sb", "pb"⟩)]
        [⟨200⟩, ⟨100⟩, ⟨300⟩] =
      [(SlotKey.main, ⟨"main", some 9, "km", "sm", "pm"⟩),
       (SlotKey.slot 1, ⟨"sub", some 100, "ka", "sa", "pa"⟩),
       (SlotKey.slot 2, ⟨"sub", some 200, "kb", "sb", "pb"⟩),
       (SlotKey.slot 3, ⟨"sub", some 300, "", "", ""⟩)] := by
  refine ⟨?_, ?_, ?_, by decide⟩
  · have h := lookupSlot_foldl_setSlot_hit cfg (sorted_subaccounts subs)
      i 0 cfg sub hi
    rw [update_config_with_subaccounts]
    have henum : (sorted_subaccounts subs).enum =
        (sorted_subaccounts subs).enumFrom 0 := rfl
    rw [henum]
    have hk : 0 + i + 1 = i + 1 := by omega
    rw [hk] at h
    exact h
  · intro c hc
    rw [rebuilt_entry, hc]
  · intro hc
    rw [rebuilt_entry, hc]

/-- C4 witness: a fresh config and the one-element exchange list `[uid 5]`
put uid 5 at slot 1 with empty credentials. -/
theorem c4_credentials_follow_uid_witness :
    lookupSlot (update_config_with_subaccounts [] [⟨5⟩]) (SlotKey.slot 1) =
      some (rebuilt_entry [] 5) ∧
    (existing_uuid_to_config [] 5 = none →
      rebuilt_entry [] 5 = ⟨"sub", some 5, "", "", ""⟩) := by
  have h := c4_credentials_follow_uid [] [⟨5⟩] 0 ⟨5⟩ (by decide)
  exact ⟨h.1, h.2.2.1⟩

/-- C5 is violated by the code: when the exchange-side list shrinks, the
rebuild loop only overwrites slots `1..N` and never deletes slots beyond
`N`.  With old sub slots 1 and 2 and a one-element exchange list, the new
sub-account count N is 1, yet stale slot 2 survives with its old entry —
and the needs-update check, run again on the freshly rebuilt config, still
reports an update as needed (the update never converges). -/
theorem c5_stale_slot_survives :
    (sorted_subaccounts [⟨100⟩]).length = 1 ∧
    lookupSlot
        (update_config_with_subaccounts
          [(SlotKey.main, ⟨"main", some 9, "km", "sm", "pm"⟩),
           (SlotKey.slot 1, ⟨"sub", some 100, "ka", "sa", "pa"⟩),
           (SlotKey.slot 2, ⟨"sub", some 200, "kb", "sb", "pb"⟩)]
          [⟨100⟩])
        (SlotKey.slot 2) = some ⟨"sub", some 200, "kb", "sb", "pb"⟩ ∧
    check_config_needs_update
        (some (update_config_with_subaccounts
          [(SlotKey.main, ⟨"main", some 9, "km", "sm", "pm"⟩),
           (SlotKey.slot 1, ⟨"sub", some 100, "ka", "sa", "pa"⟩),
           (SlotKey.slot 2, ⟨"sub", some 200, "kb", "sb", "pb"⟩)]
          [⟨100⟩]))
        [⟨100⟩] = true := by
  refine ⟨rfl, ?_, ?_⟩ <;> decide

/-- Tier-occupancy classes of the step-5 tier analysis. -/
inductive TierClass
  | tier1
  | tier2
  | notInvested
deriving DecidableEq

/-- The per-account classification of the tier analysis in
`step5_final_query` (lines 787-808): tier 2 when the post-holding exceeds
the tier-1 ceiling and the product has at least two rate steps; tier 1
when it exceeds the ceiling on a single-step product (the "exceeds the
only ceiling" branch, which increments `tier1_accounts`), or when the
holding is positive and within the ceiling; otherwise "not invested". -/
def classify_tier (tier1_limit : ℚ) (apy_count : ℕ) (holding : ℚ) :
    TierClass :=
  if tier1_limit < holding ∧ 1 < apy_count then .tier2
  else if tier1_limit < holding then .tier1
  else if 0 < holding then .tier1
  else .notInvested

/-- The `tier1_accounts` / `tier2_accounts` counters of the same loop. -/
def tier_counts (tier1_limit : ℚ) (apy_count : ℕ) (holdings : List ℚ) :
    ℕ × ℕ :=
  holdings.foldl
    (fun c h =>
      match classify_tier tier1_limit apy_count h with
      | .tier2 => (c.1, c.2 + 1)
      | .tier1 => (c.1 + 1, c.2)
      | .notInvested => c)
    (0, 0)

theorem tier_counts_foldl (t : ℚ) (apy_count : ℕ) (hs : List ℚ) :
    ∀ c : ℕ × ℕ,
    hs.foldl
      (fun c h =>
        match classify_tier t apy_count h with
        | .tier2 => (c.1, c.2 + 1)
        | .tier1 => (c.1 + 1, c.2)
        | .notInvested => c)
      c =
      (c.1 + hs.countP (fun h => classify_tier t apy_count h == .tier1),
       c.2 + hs.countP (fun h => classify_tier t apy_count h == .tier2)) := by
  induction hs with
  | nil => intro c; simp
  | cons h rest ih =>
      intro c
      rw [List.foldl_cons]
      cases hcl : classify_tier t apy_count h with
      | tier1 =>
          simp only [hcl, ih, List.countP_cons, hcl]
          simp [Prod.ext_iff]
          omega
      | tier2 =>
          simp only [hcl, ih, List.countP_cons, hcl]
          simp [Prod.ext_iff]
          omega
      | notInvested =>
          simp only [hcl, ih, List.countP_cons, hcl]
          simp

/-- C7 as stated is false: with a single-tier product (one rate step) and a
post-holding of 500 above the tier-1 ceiling 300, the code counts the
account as tier 1, although `0 < holding ≤ tier1_ceiling` does not hold. -/
theorem c7_single_tier_overflow_cex :
    classify_tier 300 1 500 = .tier1 ∧
    ¬(0 < (500 : ℚ) ∧ (500 : ℚ) ≤ 300) := by
  constructor
  · rw [classify_tier, if_neg (by norm_num), if_pos (by norm_num)]
  · norm_num

/-- C7 amended: for nonnegative ceiling and holding, the classification is:
tier 2 exactly when the holding exceeds the ceiling and the product has at
least two tiers; tier 1 exactly when `0 < holding ≤ ceiling`, or when the
holding exceeds the ceiling on a product with fewer than two tiers; "not
invested" exactly when the holding is 0 — and the reported counters equal
the number of accounts classified in each tier class. -/
theorem c7_tier_occupancy (t : ℚ) (apy_count : ℕ) (h : ℚ) (hs : List ℚ)
    (ht : 0 ≤ t) (hh : 0 ≤ h) :
    (classify_tier t apy_count h = .tier2 ↔ t < h ∧ 2 ≤ apy_count) ∧
    (classify_tier t apy_count h = .tier1 ↔
      ((0 < h ∧ h ≤ t) ∨ (t < h ∧ apy_count < 2))) ∧
    (classify_tier t apy_count h = .notInvested ↔ h = 0) ∧
    tier_counts t apy_count hs =
      (hs.countP (fun x => classify_tier t apy_count x == .tier1),
       hs.countP (fun x => classify_tier t apy_count x == .tier2)) := by
  refine ⟨?_, ?_, ?_, ?_⟩
  · rw [classify_tier]
    split_ifs with h1 h2 h3
    · exact iff_of_true rfl ⟨h1.1, h1.2⟩
    · exact iff_of_false (by decide) (fun hc => h1 ⟨hc.1, hc.2⟩)
    · exact iff_of_false (by decide) (fun hc => h2 hc.1)
    · exact iff_of_false (by decide) (fun hc => h2 hc.1)
  · rw [classify_tier]
    split_ifs with h1 h2 h3
    · refine iff_of_false (by decide) (fun hc => ?_)
      rcases hc with hc | hc
      · exact absurd h1.1 (not_lt.mpr hc.2)
      · have h12 := h1.2
        omega
    · have hle : ¬1 < apy_count := fun hgt => h1 ⟨h2, hgt⟩
      exact iff_of_true rfl (Or.inr ⟨h2, by omega⟩)
    · exact iff_of_true rfl (Or.inl ⟨h3, not_lt.mp h2⟩)
    · refine iff_of_false (by decide) (fun hc => ?_)
      rcases hc with hc | hc
      · exact h3 hc.1
      · exact h2 hc.1
  · rw [classify_tier]
    split_ifs with h1 h2 h3
    · refine iff_of_false (by decide) (fun hc => ?_)
      have := h1.1
      rw [hc] at this
      exact absurd this (not_lt.mpr ht)
    · refine iff_of_false (by decide) (fun hc => ?_)
      rw [hc] at h2
      exact absurd h2 (not_lt.mpr ht)
    · refine iff_of_false (by decide) (fun hc => ?_)
      rw [hc] at h3
      exact absurd h3 (lt_irrefl 0)
    · exact iff_of_true rfl (le_antisymm (not_lt.mp h3) hh)
  · rw [tier_counts, tier_counts_foldl]
    simp

/-- C7 amended witness: the classification iffs and counters at ceiling 300,
two tiers, holding 500, over the holdings `[500, 100, 0]`. -/
theorem c7_tier_occupancy_witness :
    (classify_tier 300 2 500 = .tier2 ↔ (300 : ℚ) < 500 ∧ 2 ≤ 2) ∧
    (classify_tier 300 2 500 = .tier1 ↔
      ((0 < (500 : ℚ) ∧ (500 : ℚ) ≤ 300) ∨ ((300 : ℚ) < 500 ∧ 2 < 2))) ∧
    (classify_tier 300 2 500 = .notInvested ↔ (500 : ℚ) = 0) ∧
    tier_counts 300 2 [500, 100, 0] =
      (([500, 100, 0] : List ℚ).countP
          (fun x => classify_tier 300 2 x == .tier1),
       ([500, 100, 0] : List ℚ).countP
          (fun x => classify_tier 300 2 x == .tier2)) :=
  c7_tier_occupancy 300 2 500 [500, 100, 0] (by norm_num) (by norm_num)

/-- A parsed interactive selection input.  `int(s)` succeeds exactly on an
integer literal, giving `single`; a string containing a comma is handled
by the multi-select branch, where each comma-separated piece must parse as
an integer, giving `multi`; anything else is `malformed`. -/
inductive SelectionInput
  | single (n : ℤ)
  | multi (ns : List ℤ)
  | malformed
deriving DecidableEq

/-- The account-selection prompt of `step3_user_selection` (lines 549-564):
`0` selects all displayed accounts, a single in-range 1-based index selects
that account, an out-of-range index is an invalid selection, and any other
input — including a comma-separated multi-select, on which `int(choice)`
raises `ValueError` — is treated as a cancellation.  `none` models "no
accounts selected". -/
def step3_select_accounts (accounts : List AccountView)
    (inp : SelectionInput) : Option (List AccountView) :=
  match inp with
  | .single n =>
      if n = 0 then some accounts
      else if 1 ≤ n ∧ n ≤ (accounts.length : ℤ) then
        some ((accounts.drop (n.toNat - 1)).take 1)
      else none
  | _ => none

/-- The target/source-selection prompt of `transfer_step2_user_selection`
(lines 1037-1070, repeated verbatim at 1150-1183 and 1224-1257): `0`
selects the whole displayed candidate list; an input containing a comma is
parsed as a list of 1-based indices, selecting those candidates in the
given order, with any out-of-range index failing the entire selection; a
single in-range index selects one candidate. -/
def transfer_select_targets (cands : List SubAccount)
    (inp : SelectionInput) : Option (List SubAccount) :=
  match inp with
  | .single n =>
      if n = 0 then some cands
      else if 1 ≤ n ∧ n ≤ (cands.length : ℤ) then
        some ((cands.drop (n.toNat - 1)).take 1)
      else none
  | .multi ns =>
      if ns.all (fun n => decide (1 ≤ n ∧ n ≤ (cands.length : ℤ))) then
        some (ns.filterMap (fun n => cands.get? (n.toNat - 1)))
      else none
  | .malformed => none

/-- C9 as stated is false: the savings planner's account selection does not
accept a comma-separated list — on the two-account list the in-range input
`1,2` yields no selection (a cancellation), while the transfer planner's
identical input selects both candidates. -/
theorem c9_savings_multi_select_cex :
    step3_select_accounts
      [⟨SlotKey.slot 1, "sub", 0, 0, 0⟩, ⟨SlotKey.slot 2, "sub", 0, 0, 0⟩]
      (.multi [1, 2]) = none ∧
    transfer_select_targets
      [⟨SlotKey.slot 1, none, 0⟩, ⟨SlotKey.slot 2, none, 0⟩]
      (.multi [1, 2]) =
      some [⟨SlotKey.slot 1, none, 0⟩, ⟨SlotKey.slot 2, none, 0⟩] :=
  ⟨rfl, rfl⟩

/-- C9 amended: the transfer planner's selection accepts "all" (`0`), a
single 1-based index, or a comma-separated index list, and any
out-of-range index fails the whole selection with nothing selected; the
savings planner's selection accepts only "all" or a single index — with an
out-of-range single index failing the selection — and rejects every
comma-separated list outright. -/
theorem c9_selection_modes (accounts : List AccountView)
    (cands : List SubAccount) (ns : List ℤ) (n : ℤ) :
    (step3_select_accounts accounts (.single 0) = some accounts) ∧
    (1 ≤ n → n ≤ (accounts.length : ℤ) →
      step3_select_accounts accounts (.single n) =
        some ((accounts.drop (n.toNat - 1)).take 1)) ∧
    (¬(n = 0 ∨ (1 ≤ n ∧ n ≤ (accounts.length : ℤ))) →
      step3_select_accounts accounts (.single n) = none) ∧
    (∀ ms : List ℤ, step3_select_accounts accounts (.multi ms) = none) ∧
    (transfer_select_targets cands (.single 0) = some cands) ∧
    (1 ≤ n → n ≤ (cands.length : ℤ) →
      transfer_select_targets cands (.single n) =
        some ((cands.drop (n.toNat - 1)).take 1)) ∧
    (¬(n = 0 ∨ (1 ≤ n ∧ n ≤ (cands.length : ℤ))) →
      transfer_select_targets cands (.single n) = none) ∧
    ((∀ m ∈ ns, 1 ≤ m ∧ m ≤ (cands.length : ℤ)) →
      transfer_select_targets cands (.multi ns) =
        some (ns.filterMap (fun m => cands.get? (m.toNat - 1)))) ∧
    ((∃ m ∈ ns, ¬(1 ≤ m ∧ m ≤ (cands.length : ℤ))) →
      transfer_select_targets cands (.multi ns) = none) := by
  refine ⟨?_, ?_, ?_, ?_, ?_, ?_, ?_, ?_, ?_⟩
  · rw [step3_select_accounts, if_pos rfl]
  · intro h1 h2
    rw [step3_select_accounts]
    by_cases h0 : n = 0
    · omega
    · rw [if_neg h0, if_pos ⟨h1, h2⟩]
  · intro hbad
    push_neg at hbad
    rw [step3_select_accounts, if_neg hbad.1, if_neg]
    intro hc
    exact absurd (hbad.2 hc.1) (not_lt.mpr hc.2)
  · intro ms; rfl
  · rw [transfer_select_targets, if_pos rfl]
  · intro h1 h2
    rw [transfer_select_targets]
    by_cases h0 : n = 0
    · omega
    · rw [if_neg h0, if_pos ⟨h1, h2⟩]
  · intro hbad
    push_neg at hbad
    rw [transfer_select_targets, if_neg hbad.1, if_neg]
    intro hc
    exact absurd (hbad.2 hc.1) (not_lt.mpr hc.2)
  · intro hall
    rw [transfer_select_targets, if_pos]
    rw [List.all_eq_true]
    intro m hm
    exact decide_eq_true (hall m hm)
  · intro ⟨m, hm, hbad⟩
    rw [transfer_select_targets, if_neg]
    rw [List.all_eq_true]
    push_neg
    exact ⟨m, hm, by simpa using hbad⟩

/-- C9 amended witness: concrete instances of every selection mode on a
two-account savings list and a two-candidate transfer list, with the index
list `[1, 2]` and the single index `1`. -/
theorem c9_selection_modes_witness :
    step3_select_accounts [⟨SlotKey.slot 1, "sub", 5, 7, 295⟩]
        (.single 0) = some [⟨SlotKey.slot 1, "sub", 5, 7, 295⟩] ∧
    step3_select_accounts [⟨SlotKey.slot 1, "sub", 5, 7, 295⟩]
        (.single 1) =
      some (([⟨SlotKey.slot 1, "sub", 5, 7, 295⟩] : List AccountView).drop
          ((1 : ℤ).toNat - 1) |>.take 1) ∧
    transfer_select_targets [⟨SlotKey.slot 1, none, 40⟩] (.single 1) =
      some (([⟨SlotKey.slot 1, none, 40⟩] : List SubAccount).drop
          ((1 : ℤ).toNat - 1) |>.take 1) ∧
    transfer_select_targets [⟨SlotKey.slot 1, none, 40⟩] (.multi [1]) =
      some (([1] : List ℤ).filterMap
        (fun m => ([⟨SlotKey.slot 1, none, 40⟩] : List SubAccount).get?
          (m.toNat - 1))) := by
  have h := c9_selection_modes [⟨SlotKey.slot 1, "sub", 5, 7, 295⟩]
    [⟨SlotKey.slot 1, none, 40⟩] [1] 1
  exact ⟨h.1, h.2.1 (by decide) (by decide),
    h.2.2.2.2.2.1 (by decide) (by decide),
    h.2.2.2.2.2.2.2.1 (by intro m hm; simp at hm; simp [hm])⟩

/-- The credential filter applied before any query, in
`step2_query_current_assets` (lines 408-417) and again in
`transfer_step1_query_balances` (lines 890-899): keep accounts of type
`main` or `sub` whose `apikey` and `secret` fields are both non-empty
(Python truthiness of the two strings). -/
def has_valid_apikey (a : ConfigAccount) : Bool :=
  (a.type == "main" || a.type == "sub") && !(a.apikey == "") &&
    !(a.secret == "")

theorem has_valid_apikey_iff (a : ConfigAccount) :
    has_valid_apikey a = true ↔
      (a.type = "main" ∨ a.type = "sub") ∧ a.apikey ≠ "" ∧ a.secret ≠ "" := by
  rw [has_valid_apikey]
  simp [and_assoc]

/-- The filtered account set both planning rounds operate on. -/
def filter_valid_accounts (cfg : Config) : Config :=
  cfg.filter (fun p => has_valid_apikey p.2)

/-- Function `step2_query_current_assets` (lines 393-475): fails ("沒有找到有效的
帳戶配置") exactly when the credential filter leaves no account, and
otherwise produces one query-result bundle per kept account.  The
per-account query outcome is abstracted as an oracle from the slot key. -/
def step2_query_current_assets (cfg : Config)
    (query : SlotKey → SavingsResult × WalletResult) :
    Option (List AccountStatus) :=
  if (filter_valid_accounts cfg).isEmpty then none
  else
    some ((filter_valid_accounts cfg).map
      (fun p => ⟨p.1, p.2, (query p.1).1, (query p.1).2⟩))

/-- Function `transfer_step1_query_balances` (lines 881-965): the same filter and
failure condition, querying only the wallet balance. -/
def transfer_step1_query_balances (cfg : Config)
    (query : SlotKey → WalletResult) :
    Option (List (SlotKey × ConfigAccount × WalletResult)) :=
  if (filter_valid_accounts cfg).isEmpty then none
  else
    some ((filter_valid_accounts cfg).map (fun p => (p.1, p.2, query p.1)))

/-- The `sub_accounts` candidate list built from the balance map in
`transfer_step2_user_selection` (lines 976-994): every non-main entry,
with its available balance extracted by the usual success-or-zero rule. -/
def transfer_sub_accounts
    (balances : List (SlotKey × ConfigAccount × WalletResult)) :
    List SubAccount :=
  (balances.filter (fun p => !(p.2.1.type == "main"))).map
    (fun p => ⟨p.1, p.2.1.uuid, get_account_wallet p.2.2⟩)

/-- The sub-to-main "drain all" plan (lines 1186-1194): one transfer per
selected sub-account for its full balance. -/
def plan_sub_to_main_all (selected : List SubAccount) : List TransferOp :=
  selected.map (fun sub => ⟨.subToMain, sub.id, SlotKey.main, sub.balance⟩)

/-- The sub-to-main "fixed amount" plan (lines 1260-1268): one transfer per
selected sub-account for exactly the requested amount. -/
def plan_sub_to_main_fixed (amount : ℚ) (selected : List SubAccount) :
    List TransferOp :=
  selected.map (fun sub => ⟨.subToMain, sub.id, SlotKey.main, amount⟩)

theorem planAccount_account_id (t : ℚ) (c : OpChoice) (a : AccountView)
    (op : SavingsOp) (h : planAccount t c a = some op) :
    op.account_id = a.id := by
  cases c <;> rw [planAccount] at h <;> split_ifs at h <;>
    (injection h with h2; try rw [← h2])

/-- C10: in both planning rounds the credential filter runs before any
query is issued: every queried account comes from a config entry of type
main/sub with non-empty apikey and secret; every planned savings operation
belongs to a queried account; a round fails exactly when no configured
account passes the filter (and the two rounds fail together); the transfer
candidate list contains only credentialed sub entries of the config;
selections pick only displayed candidates; and planned transfers reference
only the main account and selected candidates. -/
theorem c10_credentialless_accounts_excluded (cfg : Config)
    (query : SlotKey → SavingsResult × WalletResult)
    (wquery : SlotKey → WalletResult) (t per mb amount : ℚ) (pid : String)
    (choice : OpChoice) (inp : SelectionInput) (cands sel : List SubAccount)
    (accept : Bool) :
    (∀ statuses, step2_query_current_assets cfg query = some statuses →
      ∀ s ∈ statuses, (s.id, s.account_info) ∈ cfg ∧
        s.account_info.apikey ≠ "" ∧ s.account_info.secret ≠ "") ∧
    (∀ statuses, step2_query_current_assets cfg query = some statuses →
      ∀ op ∈ step3_plan_operations t choice
          (statuses.map (buildAccountView t pid)),
        ∃ s ∈ statuses, op.account_id = s.id) ∧
    (step2_query_current_assets cfg query = none ↔
      ∀ p ∈ cfg, ¬((p.2.type = "main" ∨ p.2.type = "sub") ∧
        p.2.apikey ≠ "" ∧ p.2.secret ≠ "")) ∧
    (transfer_step1_query_balances cfg wquery = none ↔
      step2_query_current_assets cfg query = none) ∧
    (∀ balances, transfer_step1_query_balances cfg wquery = some balances →
      ∀ s ∈ transfer_sub_accounts balances,
        ∃ p ∈ cfg, p.1 = s.id ∧ p.2.type = "sub" ∧
          p.2.apikey ≠ "" ∧ p.2.secret ≠ "") ∧
    (∀ chosen, transfer_select_targets cands inp = some chosen →
      ∀ s ∈ chosen, s ∈ cands) ∧
    (∀ ops, planMainToSub mb per sel accept = some ops →
      ∀ op ∈ ops, op.from_account = SlotKey.main ∧
        ∃ s ∈ sel, op.to_account = s.id) ∧
    (∀ op ∈ plan_sub_to_main_all sel,
      op.to_account = SlotKey.main ∧ ∃ s ∈ sel, op.from_account = s.id) ∧
    (∀ op ∈ plan_sub_to_main_fixed amount sel,
      op.to_account = SlotKey.main ∧ ∃ s ∈ sel, op.from_account = s.id) := by
  refine ⟨?_, ?_, ?_, ?_, ?_, ?_, ?_, ?_, ?_⟩
  · intro statuses hq s hs
    rw [step2_query_current_assets] at hq
    by_cases he : (filter_valid_accounts cfg).isEmpty
    · rw [if_pos he] at hq
      exact absurd hq (by simp)
    · rw [if_neg he] at hq
      injection hq with hq2
      subst hq2
      rw [List.mem_map] at hs
      obtain ⟨p, hp, hps⟩ := hs
      rw [filter_valid_accounts, List.mem_filter] at hp
      have hpred := (has_valid_apikey_iff p.2).mp hp.2
      subst hps
      exact ⟨hp.1, hpred.2.1, hpred.2.2⟩
  · intro statuses hq op hop
    rw [step3_plan_operations, List.mem_filterMap] at hop
    obtain ⟨v, hv, hplan⟩ := hop
    rw [List.mem_map] at hv
    obtain ⟨s, hsmem, hsv⟩ := hv
    refine ⟨s, hsmem, ?_⟩
    rw [planAccount_account_id t choice v op hplan, ← hsv]
    rfl
  · rw [step2_query_current_assets]
    by_cases he : (filter_valid_accounts cfg).isEmpty
    · rw [if_pos he]
      refine iff_of_true rfl ?_
      intro p hp hcl
      rw [List.isEmpty_iff, filter_valid_accounts] at he
      have hnp := List.filter_eq_nil_iff.mp he p hp
      exact hnp ((has_valid_apikey_iff p.2).mpr hcl)
    · rw [if_neg he]
      refine iff_of_false (by simp) ?_
      intro hall
      rw [List.isEmpty_iff] at he
      obtain ⟨p, hp⟩ := List.exists_mem_of_ne_nil _ he
      rw [filter_valid_accounts, List.mem_filter] at hp
      exact hall p hp.1 ((has_valid_apikey_iff p.2).mp hp.2)
  · rw [transfer_step1_query_balances, step2_query_current_assets]
    by_cases he : (filter_valid_accounts cfg).isEmpty
    · rw [if_pos he, if_pos he]
      exact iff_of_true rfl rfl
    · rw [if_neg he, if_neg he]
      exact iff_of_false (by simp) (by simp)
  · intro balances hq s hs
    rw [transfer_step1_query_balances] at hq
    by_cases he : (filter_valid_accounts cfg).isEmpty
    · rw [if_pos he] at hq
      exact absurd hq (by simp)
    · rw [if_neg he] at hq
      injection hq with hq2
      subst hq2
      rw [transfer_sub_accounts, List.mem_map] at hs
      obtain ⟨q, hq3, hqs⟩ := hs
      rw [List.mem_filter, List.mem_map] at hq3
      obtain ⟨⟨p, hp, hpq⟩, hnotmain⟩ := hq3
      rw [filter_valid_accounts, List.mem_filter] at hp
      have hpred := (has_valid_apikey_iff p.2).mp hp.2
      refine ⟨p, hp.1, ?_, ?_, hpred.2.1, hpred.2.2⟩
      · rw [← hqs, ← hpq]
      · subst hpq
        simp only [Bool.not_eq_true', beq_eq_false_iff_ne] at hnotmain
        rcases hpred.1 with hm | hsub
        · exact absurd hm hnotmain
        · exact hsub
  · intro chosen hsel s hs
    cases inp with
    | single n =>
        rw [transfer_select_targets] at hsel
        split_ifs at hsel with h0 hr
        · injection hsel with h2
          subst h2
          exact hs
        · injection hsel with h2
          subst h2
          exact List.drop_subset _ _ (List.take_subset _ _ hs)
    | multi ns =>
        rw [transfer_select_targets] at hsel
        split_ifs at hsel with hall
        · injection hsel with h2
          subst h2
          rw [List.mem_filterMap] at hs
          obtain ⟨m, _, hget⟩ := hs
          exact List.get?_mem hget
    | malformed => exact absurd hsel (by simp [transfer_select_targets])
  · intro ops hops op hop
    rw [planMainToSub] at hops
    split_ifs at hops with hover hpos hacc
    · injection hops with h2
      subst h2
      rw [List.mem_map] at hop
      obtain ⟨s, hsmem, hs⟩ := hop
      subst hs
      exact ⟨rfl, s, List.take_subset _ _ hsmem, rfl⟩
    · injection hops with h2
      subst h2
      rw [List.mem_map] at hop
      obtain ⟨s, hsmem, hs⟩ := hop
      subst hs
      exact ⟨rfl, s, hsmem, rfl⟩
  · intro op hop
    rw [plan_sub_to_main_all, List.mem_map] at hop
    obtain ⟨s, hsmem, hs⟩ := hop
    subst hs
    exact ⟨rfl, s, hsmem, rfl⟩
  · intro op hop
    rw [plan_sub_to_main_fixed, List.mem_map] at hop
    obtain ⟨s, hsmem, hs⟩ := hop
    subst hs
    exact ⟨rfl, s, hsmem, rfl⟩

/-- C10 witness: on a config with a credentialed main account and a
credential-less sub slot, the (single) queried account is the main entry,
with its non-empty credentials. -/
theorem c10_credentialless_accounts_excluded_witness :
    ((SlotKey.main, (⟨"main", some 9, "km", "sm", "pm"⟩ : ConfigAccount)) ∈
      ([(SlotKey.main, ⟨"main", some 9, "km", "sm", "pm"⟩),
        (SlotKey.slot 1, ⟨"sub", some 100, "", "", ""⟩)] : Config)) ∧
    ("km" : String) ≠ "" ∧ ("sm" : String) ≠ "" := by
  have h := c10_credentialless_accounts_excluded
    [(SlotKey.main, ⟨"main", some 9, "km", "sm", "pm"⟩),
     (SlotKey.slot 1, ⟨"sub", some 100, "", "", ""⟩)]
    (fun _ => (⟨"00000", []⟩, ⟨"00000", []⟩)) (fun _ => ⟨"00000", []⟩)
    300 30 100 50 "P" .fillToTier1 .malformed [] [] true
  exact h.1
    [⟨SlotKey.main, ⟨"main", some 9, "km", "sm", "pm"⟩, ⟨"00000", []⟩,
      ⟨"00000", []⟩⟩] rfl
    ⟨SlotKey.main, ⟨"main", some 9, "km", "sm", "pm"⟩, ⟨"00000", []⟩,
      ⟨"00000", []⟩⟩ (by simp)

end BgFlex
